import Mathlib

/-!
Verification of the Nadi-dosha calculation engine.

Shallow embedding of the Python sources under `server/` into Lean:
pure numeric code over Python floats is modelled with exact rationals
(`ℚ`); Python `int` values are `ℤ`; fallible code (string parsing and
the `datetime` constructor, whose exceptions are caught by the source)
returns `Option`.  Python strings are handled through their character
lists (`String.data`).

Embedded modules:
* `server/services/julian_date_calculator.py`
* `server/services/moon_position_calculator.py` (the `_normalize_degrees` part)
* `server/services/ayanamsa_calculator.py` (the `tropical_to_sidereal` part)
* `server/services/nakshatra_mapper.py`
* `server/services/nadi_mapper.py`
* `server/services/nadi_calculation_service.py`
* `server/domain/constants.py`
-/

namespace NadiDosha

/-- Python's `%` on floats with a positive right operand: the result has
the sign of the divisor, i.e. `x - y * floor (x / y)`. -/
def pymod (x y : ℚ) : ℚ := x - y * ⌊x / y⌋

/-- Python's `int(...)` applied to a float: truncation toward zero. -/
def pytrunc (q : ℚ) : ℤ := if 0 ≤ q then ⌊q⌋ else -⌊-q⌋

/-- Python's `str.split(sep)` for a one-character separator, over
character lists.  `"".split(sep) = [""]`, and separators at the ends
produce empty components, exactly as in Python. -/
def splitOnChar (sep : Char) : List Char → List (List Char)
  | [] => [[]]
  | c :: cs =>
    if c = sep then [] :: splitOnChar sep cs
    else
      match splitOnChar sep cs with
      | [] => [[c]]
      | h :: t => (c :: h) :: t

/-- ASCII whitespace, as stripped by Python's `str.strip()` (the
non-ASCII whitespace Python also strips does not occur in this
development). -/
def isWS (c : Char) : Bool := c = ' ' ∨ c = '\t' ∨ c = '\n' ∨ c = '\r'

/-- Python's `str.strip()`: drop leading and trailing whitespace. -/
def trimWS (l : List Char) : List Char :=
  ((l.dropWhile isWS).reverse.dropWhile isWS).reverse

/-- Decimal value of a digit list. -/
def digitsVal (l : List Char) : ℕ :=
  l.foldl (fun a c => 10 * a + (c.toNat - 48)) 0

/-- Python's `int(str)`: optional surrounding whitespace, an optional
sign, then a nonempty run of decimal digits.  (Python additionally
accepts underscore digit separators and non-ASCII decimal digits; those
are outside this model and outside every claim considered here.) -/
def pyInt (l : List Char) : Option ℤ :=
  let t := trimWS l
  let p : ℤ × List Char :=
    match t with
    | '+' :: r => (1, r)
    | '-' :: r => (-1, r)
    | r => (1, r)
  if p.2 ≠ [] ∧ p.2.all Char.isDigit then some (p.1 * digitsVal p.2) else none

/-- The lexical pieces of a Python float literal: sign, integer-part
digits, fraction digits, exponent sign and exponent digits (an absent
exponent is the empty digit list, contributing the factor `10 ^ 0`). -/
structure FloatLit where
  sign : ℤ
  ip : List Char
  fp : List Char
  esign : ℤ
  ed : List Char
deriving DecidableEq, Repr

/-- Lexer for Python's `float(str)` on finite decimal literals:
optional whitespace, optional sign, a mantissa `digits[.digits]` or
`.digits` with at least one digit, and an optional exponent part.
(Python additionally accepts `inf`/`nan` literals and underscore
separators; those are outside this model and outside every claim
considered here.) -/
def floatLexeme (l : List Char) : Option FloatLit :=
  let t := trimWS l
  let p : ℤ × List Char :=
    match t with
    | '+' :: r => (1, r)
    | '-' :: r => (-1, r)
    | r => (1, r)
  let ip := p.2.takeWhile Char.isDigit
  let r1 := p.2.dropWhile Char.isDigit
  let fq : List Char × List Char :=
    match r1 with
    | '.' :: r => (r.takeWhile Char.isDigit, r.dropWhile Char.isDigit)
    | _ => ([], r1)
  if ip = [] ∧ fq.1 = [] then none
  else
    match fq.2 with
    | [] => some ⟨p.1, ip, fq.1, 1, []⟩
    | 'e' :: r3 =>
      let q : ℤ × List Char :=
        match r3 with
        | '+' :: r => (1, r)
        | '-' :: r => (-1, r)
        | r => (1, r)
      if q.2 ≠ [] ∧ q.2.all Char.isDigit then some ⟨p.1, ip, fq.1, q.1, q.2⟩ else none
    | 'E' :: r3 =>
      let q : ℤ × List Char :=
        match r3 with
        | '+' :: r => (1, r)
        | '-' :: r => (-1, r)
        | r => (1, r)
      if q.2 ≠ [] ∧ q.2.all Char.isDigit then some ⟨p.1, ip, fq.1, q.1, q.2⟩ else none
    | _ => none

/-- Exact rational value of a lexed float literal. -/
def floatVal (f : FloatLit) : ℚ :=
  (f.sign : ℚ) * (((digitsVal f.ip : ℚ) + (digitsVal f.fp : ℚ) / 10 ^ f.fp.length) *
    (10 : ℚ) ^ (f.esign * (digitsVal f.ed : ℤ)))

/-- Python's `float(str)` on finite decimal literals (see
`floatLexeme` for the accepted grammar). -/
def pyFloat (l : List Char) : Option ℚ :=
  (floatLexeme l).map floatVal

/-- The value object produced by Python's `datetime(...)` constructor. -/
structure PyDateTime where
  year : ℤ
  month : ℤ
  day : ℤ
  hour : ℤ
  minute : ℤ
  second : ℤ
deriving DecidableEq, Repr

/-- Gregorian leap-year rule, as used by Python's `datetime`. -/
def is_leap (y : ℤ) : Bool := (y % 4 = 0 ∧ y % 100 ≠ 0) ∨ y % 400 = 0

/-- Days in a Gregorian month. -/
def days_in_month (y m : ℤ) : ℤ :=
  if m = 2 then (if is_leap y then 29 else 28)
  else if m = 4 ∨ m = 6 ∨ m = 9 ∨ m = 11 then 30
  else 31

/-- Python's `datetime(year, month, day, hour, minute, second)`
constructor: `some` a value object when every field is in range,
`none` for the `ValueError` the source catches.  (`OverflowError` for
years beyond machine range is not modelled; every claim stays within
`datetime`'s documented range `1..9999`.) -/
def mk_datetime (y mo d h mi s : ℤ) : Option PyDateTime :=
  if 1 ≤ y ∧ y ≤ 9999 ∧ 1 ≤ mo ∧ mo ≤ 12 ∧ 1 ≤ d ∧ d ≤ days_in_month y mo ∧
     0 ≤ h ∧ h ≤ 23 ∧ 0 ≤ mi ∧ mi ≤ 59 ∧ 0 ≤ s ∧ s ≤ 59 then
    some ⟨y, mo, d, h, mi, s⟩
  else none

/-- `JulianDateCalculator.from_ut_datetime`
(`julian_date_calculator.py`, lines 16-56): the Meeus Julian-Date
formula.  The decimal literals `365.25`, `30.6001`, `1524.5` are exact
rationals, matching the source constants. -/
def from_ut_datetime (dt : PyDateTime) : ℚ :=
  let ut_decimal : ℚ := (dt.hour : ℚ) + (dt.minute : ℚ) / 60 + (dt.second : ℚ) / 3600
  let ym : ℤ × ℤ := if dt.month ≤ 2 then (dt.year - 1, dt.month + 12) else (dt.year, dt.month)
  let a : ℤ := ⌊(ym.1 : ℚ) / 100⌋
  let b : ℤ := 2 - a + ⌊(a : ℚ) / 4⌋
  let jd0 : ℚ :=
    (⌊(365.25 : ℚ) * ((ym.1 : ℚ) + 4716)⌋ : ℚ) +
    (⌊(30.6001 : ℚ) * ((ym.2 : ℚ) + 1)⌋ : ℚ) +
    (dt.day : ℚ) + (b : ℚ) - 1524.5
  jd0 + ut_decimal / 24

/-- The `while utc_hour >= 24` loop of `from_date_time_strings`
(lines 98-100): subtract 24 from the hour and advance the day. -/
def roll_forward (uh : ℚ) (d : ℤ) : ℚ × ℤ :=
  if h : 24 ≤ uh then roll_forward (uh - 24) (d + 1) else (uh, d)
termination_by (⌈uh⌉).toNat
decreasing_by
  have h1 : (24 : ℤ) ≤ ⌈uh⌉ := by
    have h2 := Int.le_ceil uh
    have h3 : (24 : ℚ) ≤ (⌈uh⌉ : ℚ) := le_trans h h2
    exact_mod_cast h3
  have h4 : ⌈uh - 24⌉ = ⌈uh⌉ - 24 := by
    exact_mod_cast Int.ceil_sub_int uh (24 : ℤ)
  rw [h4]
  omega

/-- The `while utc_hour < 0` loop of `from_date_time_strings`
(lines 101-103): add 24 to the hour and step the day back. -/
def roll_back (uh : ℚ) (d : ℤ) : ℚ × ℤ :=
  if h : uh < 0 then roll_back (uh + 24) (d - 1) else (uh, d)
termination_by (⌈-uh⌉).toNat
decreasing_by
  have h1 : (1 : ℤ) ≤ ⌈-uh⌉ := by
    have h2 : (0 : ℚ) < -uh := by linarith
    exact Int.ceil_pos.mpr h2
  have h4 : ⌈-(uh + 24)⌉ = ⌈-uh⌉ - 24 := by
    rw [show -(uh + 24) = -uh - (24 : ℚ) by ring]
    exact_mod_cast Int.ceil_sub_int (-uh) (24 : ℤ)
  rw [h4]
  omega

/-- The two overflow/underflow loops in sequence, exactly as they occur
in `from_date_time_strings` (lines 97-103). -/
def normalize_hour_day (uh : ℚ) (d : ℤ) : ℚ × ℤ :=
  let p := roll_forward uh d
  roll_back p.1 p.2

/-- Lines 76-83 of `from_date_time_strings`: split the date string on
dashes, require exactly 3 components, parse each with `int(...)`. -/
def parse_date (s : String) : Option (ℤ × ℤ × ℤ) :=
  match splitOnChar '-' s.data with
  | [a, b, c] =>
    match pyInt a, pyInt b, pyInt c with
    | some y, some mo, some d => some (y, mo, d)
    | _, _, _ => none
  | _ => none

/-- Lines 85-91 of `from_date_time_strings`: split the time string on
colons, require exactly 2 components, parse each with `int(...)`. -/
def parse_time (s : String) : Option (ℤ × ℤ) :=
  match splitOnChar ':' s.data with
  | [a, b] =>
    match pyInt a, pyInt b with
    | some h, some mi => some (h, mi)
    | _, _ => none
  | _ => none

/-- Lines 93-109 of `from_date_time_strings`: subtract the offset from
the local hour, run the two day-roll loops, truncate the hour with
`int(...)`, keep the minute unchanged, and call the `datetime`
constructor. -/
def utc_fields (y mo dy h mi : ℤ) (off : ℚ) : Option PyDateTime :=
  let uh : ℚ := (h : ℚ) - off
  let p := normalize_hour_day uh dy
  mk_datetime y mo p.2 (pytrunc p.1) mi 0

/-- `JulianDateCalculator.from_date_time_strings`
(`julian_date_calculator.py`, lines 58-114).  Every exception of the
parsing and construction steps is caught by the source's
`try/except`, so failure is `none`. -/
def from_date_time_strings (date_str time_str : String) (timezone_offset : ℚ) : Option ℚ :=
  match parse_date date_str, parse_time time_str with
  | some (y, mo, dy), some (h, mi) =>
    (utc_fields y mo dy h mi timezone_offset).map from_ut_datetime
  | _, _ => none

/-- `J2000_EPOCH` from `constants.py`. -/
def J2000_EPOCH : ℚ := 2451545.0

/-- `DAYS_PER_CENTURY` from `constants.py`. -/
def DAYS_PER_CENTURY : ℚ := 36525.0

/-- `JulianDateCalculator.to_julian_centuries` (lines 116-128). -/
def to_julian_centuries (julian_date : ℚ) : ℚ :=
  (julian_date - J2000_EPOCH) / DAYS_PER_CENTURY

/-- `MoonPositionCalculator._normalize_degrees`
(`moon_position_calculator.py`, lines 48-51):
`((angle % 360.0) + 360.0) % 360.0`. -/
def _normalize_degrees (angle : ℚ) : ℚ :=
  pymod (pymod angle 360 + 360) 360

/-- `AyanamsaCalculator.tropical_to_sidereal`
(`ayanamsa_calculator.py`, lines 54-67). -/
def tropical_to_sidereal (tropical_longitude ayanamsa : ℚ) : ℚ :=
  let sidereal := tropical_longitude - ayanamsa
  pymod (pymod sidereal 360 + 360) 360

/-- `NAKSHATRAS` from `constants.py`: the 27 lunar-mansion names. -/
def NAKSHATRAS : List String :=
  ["Ashwini", "Bharani", "Krittika", "Rohini", "Mrigashira", "Ardra",
   "Punarvasu", "Pushya", "Ashlesha", "Magha", "Purva Phalguni", "Uttara Phalguni",
   "Hasta", "Chitra", "Swati", "Vishakha", "Anuradha", "Jyeshtha", "Moola",
   "Purva Ashadha", "Uttara Ashadha", "Shravana", "Dhanishta", "Shatabhisha",
   "Purva Bhadrapada", "Uttara Bhadrapada", "Revati"]

/-- `NADI_GROUPS` from `constants.py`, in dict insertion order. -/
def NADI_GROUPS : List (String × List String) :=
  [("Aadi",
    ["Ashwini", "Ardra", "Punarvasu", "Uttara Phalguni", "Hasta", "Jyeshtha",
     "Moola", "Shatabhisha", "Purva Bhadrapada"]),
   ("Madhya",
    ["Bharani", "Mrigashira", "Pushya", "Purva Phalguni", "Chitra", "Anuradha",
     "Purva Ashadha", "Dhanishta", "Uttara Bhadrapada"]),
   ("Antya",
    ["Krittika", "Rohini", "Ashlesha", "Magha", "Swati", "Vishakha",
     "Uttara Ashadha", "Shravana", "Revati"])]

/-- `NAKSHATRA_SPAN_DEGREES` from `constants.py`: `360.0 / 27.0`
(exact 40/3 in this rational model of the float constant). -/
def NAKSHATRA_SPAN_DEGREES : ℚ := 360.0 / 27.0

/-- `PADA_SPAN_DEGREES` from `constants.py`. -/
def PADA_SPAN_DEGREES : ℚ := NAKSHATRA_SPAN_DEGREES / 4.0

/-- `NakshatraMapper.longitude_to_nakshatra`
(`nakshatra_mapper.py`, lines 18-55).  Python's list indexing after the
clamp can never be out of range; `List.getD` with an (unreachable)
default stands in for it. -/
def longitude_to_nakshatra (sidereal_longitude : ℚ) : String × ℤ × ℤ :=
  let longitude := pymod sidereal_longitude 360
  let i0 : ℤ := pytrunc (longitude / NAKSHATRA_SPAN_DEGREES)
  let nakshatra_index : ℤ :=
    if i0 ≥ (NAKSHATRAS.length : ℤ) then (NAKSHATRAS.length : ℤ) - 1
    else if i0 < 0 then 0
    else i0
  let nakshatra_name := NAKSHATRAS.getD nakshatra_index.toNat ""
  let position_in_nakshatra := longitude - (nakshatra_index : ℚ) * NAKSHATRA_SPAN_DEGREES
  let p0 : ℤ := pytrunc (position_in_nakshatra / PADA_SPAN_DEGREES) + 1
  let pada_number : ℤ := if p0 > 4 then 4 else if p0 < 1 then 1 else p0
  (nakshatra_name, nakshatra_index, pada_number)

/-- `NadiMapper.nakshatra_to_nadi` (`nadi_mapper.py`, lines 15-31):
first group containing the name, in dict order, else the `"Aadi"`
fallback. -/
def nakshatra_to_nadi (nakshatra_name : String) : String :=
  match NADI_GROUPS.find? (fun g => decide (nakshatra_name ∈ g.2)) with
  | some g => g.1
  | none => "Aadi"

/-- `NadiCalculationService._parse_timezone_offset`
(`nadi_calculation_service.py`, lines 95-130).  The `timezone` argument
reaches this method as a string (the `isinstance` branch for numbers is
outside the string-input model). -/
def _parse_timezone_offset (timezone : String) : ℚ :=
  let t := trimWS timezone.data
  if t.contains ':' then
    let sign : ℚ := if t.head? = some '-' then -1 else 1
    let clean := t.filter (fun c => !(c = '+' ∨ c = '-'))
    match splitOnChar ':' clean with
    | p0 :: p1 :: _ =>
      match pyFloat p0, pyFloat p1 with
      | some hours, some minutes => sign * (hours + minutes / 60)
      | _, _ => 0
    | _ =>
      -- unreachable: the colon survives sign removal, so the split has
      -- at least two components
      0
  else
    match pyFloat t with
    | some v => v
    | none => 0

/-- `NadiResult` from `domain/models.py`, the fields produced by the
calculation service. -/
structure NadiResult where
  nakshatra : String
  nakshatra_index : ℤ
  pada : ℤ
  nadi : String
  sidereal_longitude : ℚ
  tropical_longitude : ℚ
  accuracy : String
deriving DecidableEq, Repr

/-- `NadiCalculationService.calculate`
(`nadi_calculation_service.py`, lines 42-93).  The service receives its
stage calculators by dependency injection; the moon-position,
ayanamsa, nakshatra-mapping and nadi-mapping stages are therefore
parameters here, exactly mirroring the constructor injection of the
source.  (The concrete moon/ayanamsa stages involve `math.sin` and are
not needed by any claim.) -/
def calculate
    (moonCalc : ℚ → ℚ) (ayanCalc : ℚ → ℚ) (tropToSid : ℚ → ℚ → ℚ)
    (nakMapper : ℚ → String × ℤ × ℤ) (nadiMapper : String → String)
    (birth_date birth_time timezone : String) : Option NadiResult :=
  match from_date_time_strings birth_date birth_time (_parse_timezone_offset timezone) with
  | none => none
  | some julian_date =>
    let julian_centuries := to_julian_centuries julian_date
    let tropical_longitude := moonCalc julian_centuries
    let ayanamsa := ayanCalc julian_date
    let sidereal_longitude := tropToSid tropical_longitude ayanamsa
    let m := nakMapper sidereal_longitude
    let nadi := nadiMapper m.1
    some ⟨m.1, m.2.1, m.2.2, nadi, sidereal_longitude, tropical_longitude,
          "Enhanced (Â±0.5 arc-minutes)"⟩

/-! ### Arithmetic facts about the Python float modulo -/

theorem pymod_nonneg (x y : ℚ) (hy : 0 < y) : 0 ≤ pymod x y := by
  unfold pymod
  have h1 : (⌊x / y⌋ : ℚ) ≤ x / y := Int.floor_le _
  have h2 : (⌊x / y⌋ : ℚ) * y ≤ x := by
    have h3 := mul_le_mul_of_nonneg_right h1 (le_of_lt hy)
    rwa [div_mul_cancel₀ x (ne_of_gt hy)] at h3
  linarith

theorem pymod_lt (x y : ℚ) (hy : 0 < y) : pymod x y < y := by
  unfold pymod
  have h1 : x / y < ⌊x / y⌋ + 1 := Int.lt_floor_add_one _
  have h2 : x < ((⌊x / y⌋ : ℚ) + 1) * y := by
    have h3 := mul_lt_mul_of_pos_right h1 hy
    rwa [div_mul_cancel₀ x (ne_of_gt hy)] at h3
  rw [add_mul, one_mul] at h2
  linarith

theorem pymod_eq_self (x y : ℚ) (h0 : 0 ≤ x) (hxy : x < y) : pymod x y = x := by
  have hy : 0 < y := lt_of_le_of_lt h0 hxy
  unfold pymod
  have hfl : ⌊x / y⌋ = 0 :=
    Int.floor_eq_zero_iff.mpr ⟨div_nonneg h0 hy.le, (div_lt_one hy).mpr hxy⟩
  rw [hfl]
  push_cast
  ring

theorem pymod_add_right (x y : ℚ) (hy : y ≠ 0) : pymod (x + y) y = pymod x y := by
  unfold pymod
  have h1 : (x + y) / y = x / y + 1 := by field_simp
  rw [h1, Int.floor_add_one]
  push_cast
  ring

/-- The double-modulo normalizer is plain floor-modulo by 360. -/
theorem normalize_degrees_eq_pymod (x : ℚ) : _normalize_degrees x = pymod x 360 := by
  unfold _normalize_degrees
  rw [pymod_add_right _ _ (by norm_num)]
  exact pymod_eq_self _ _ (pymod_nonneg x 360 (by norm_num)) (pymod_lt x 360 (by norm_num))

/-! ### Closed forms of the day-roll loops -/

theorem roll_forward_eq (uh : ℚ) (d : ℤ) (h0 : 0 ≤ uh) :
    roll_forward uh d = (uh - 24 * (⌊uh / 24⌋ : ℚ), d + ⌊uh / 24⌋) := by
  have key : ∀ n : ℕ, ∀ uh : ℚ, ∀ d : ℤ, 0 ≤ uh → ⌊uh / 24⌋ = (n : ℤ) →
      roll_forward uh d = (uh - 24 * (n : ℚ), d + (n : ℤ)) := by
    intro n
    induction n with
    | zero =>
      intro uh d h0 hfl
      rw [roll_forward.eq_def, dif_neg]
      · norm_num
      · intro hc
        have h1 : (1 : ℚ) ≤ uh / 24 := (one_le_div (by norm_num : (0:ℚ) < 24)).mpr hc
        have h2 : (1 : ℤ) ≤ ⌊uh / 24⌋ := by
          have := Int.le_floor.mpr (by exact_mod_cast h1 : ((1 : ℤ) : ℚ) ≤ uh / 24)
          exact this
        omega
    | succ n ih =>
      intro uh d h0 hfl
      have h24 : 24 ≤ uh := by
        have h1 : (1 : ℤ) ≤ ⌊uh / 24⌋ := by omega
        have h2 : ((1 : ℤ) : ℚ) ≤ uh / 24 := le_trans (by exact_mod_cast Int.cast_le.mpr h1) (Int.floor_le _)
        have h3 : (1 : ℚ) ≤ uh / 24 := by exact_mod_cast h2
        linarith [(one_le_div (by norm_num : (0:ℚ) < 24)).mp h3]
      rw [roll_forward.eq_def, dif_pos h24]
      have hfl2 : ⌊(uh - 24) / 24⌋ = (n : ℤ) := by
        have h4 : (uh - 24) / 24 = uh / 24 - 1 := by ring
        rw [h4, Int.floor_sub_one, hfl]
        push_cast
        ring
      rw [ih (uh - 24) (d + 1) (by linarith) hfl2]
      simp only [Prod.mk.injEq]
      refine ⟨by push_cast; ring, by push_cast; omega⟩
  have hn : 0 ≤ ⌊uh / 24⌋ := Int.floor_nonneg.mpr (div_nonneg h0 (by norm_num))
  have h5 := key (⌊uh / 24⌋).toNat uh d h0 (by omega)
  rw [h5]
  simp only [Prod.mk.injEq]
  have h6 : ((⌊uh / 24⌋).toNat : ℚ) = (⌊uh / 24⌋ : ℚ) := by
    exact_mod_cast congrArg (Int.cast : ℤ → ℚ) (Int.toNat_of_nonneg hn)
  refine ⟨by rw [h6], by omega⟩

theorem roll_back_eq (uh : ℚ) (d : ℤ) (hlt : uh < 24) :
    roll_back uh d = (uh - 24 * (⌊uh / 24⌋ : ℚ), d + ⌊uh / 24⌋) := by
  have key : ∀ n : ℕ, ∀ uh : ℚ, ∀ d : ℤ, uh < 24 → ⌊uh / 24⌋ = -(n : ℤ) →
      roll_back uh d = (uh + 24 * (n : ℚ), d - (n : ℤ)) := by
    intro n
    induction n with
    | zero =>
      intro uh d hlt hfl
      rw [roll_back.eq_def, dif_neg]
      · norm_num
      · intro hc
        have h1 : uh / 24 < 0 := div_neg_of_neg_of_pos hc (by norm_num)
        have h2 : ⌊uh / 24⌋ < 0 := by
          have := Int.floor_le (uh / 24)
          by_contra hge
          push_neg at hge
          have h3 : (0 : ℚ) ≤ (⌊uh / 24⌋ : ℚ) := by exact_mod_cast hge
          linarith
        omega
    | succ n ih =>
      intro uh d hlt hfl
      have hneg : uh < 0 := by
        by_contra hge
        push_neg at hge
        have h1 : 0 ≤ ⌊uh / 24⌋ := Int.floor_nonneg.mpr (div_nonneg hge (by norm_num))
        omega
      rw [roll_back.eq_def, dif_pos hneg]
      have hfl2 : ⌊(uh + 24) / 24⌋ = -(n : ℤ) := by
        have h4 : (uh + 24) / 24 = uh / 24 + 1 := by ring
        rw [h4, Int.floor_add_one, hfl]
        push_cast
        ring
      rw [ih (uh + 24) (d - 1) (by linarith) hfl2]
      simp only [Prod.mk.injEq]
      refine ⟨by push_cast; ring, by push_cast; omega⟩
  have hn : ⌊uh / 24⌋ ≤ 0 := by
    have h1 : uh / 24 < 1 := (div_lt_one (by norm_num : (0:ℚ) < 24)).mpr hlt
    have h2 : ⌊uh / 24⌋ < 1 := Int.floor_lt.mpr (by exact_mod_cast h1)
    omega
  have h5 := key (-⌊uh / 24⌋).toNat uh d hlt (by omega)
  rw [h5]
  simp only [Prod.mk.injEq]
  have h6 : (((-⌊uh / 24⌋).toNat : ℕ) : ℚ) = -(⌊uh / 24⌋ : ℚ) := by
    exact_mod_cast congrArg (Int.cast : ℤ → ℚ) (Int.toNat_of_nonneg (by omega : 0 ≤ -⌊uh / 24⌋))
  refine ⟨by rw [h6]; ring, by omega⟩

/-- Net effect of the two loops: floor-divide the hour by 24, roll the
remainder into the hour and the quotient into the day. -/
theorem normalize_hour_day_eq (uh : ℚ) (d : ℤ) :
    normalize_hour_day uh d = (uh - 24 * (⌊uh / 24⌋ : ℚ), d + ⌊uh / 24⌋) := by
  unfold normalize_hour_day
  by_cases h0 : 0 ≤ uh
  · rw [roll_forward_eq uh d h0]
    have hmod : uh - 24 * (⌊uh / 24⌋ : ℚ) = pymod uh 24 := by unfold pymod; ring
    have hge : 0 ≤ uh - 24 * (⌊uh / 24⌋ : ℚ) := by rw [hmod]; exact pymod_nonneg _ _ (by norm_num)
    have hlt : uh - 24 * (⌊uh / 24⌋ : ℚ) < 24 := by rw [hmod]; exact pymod_lt _ _ (by norm_num)
    rw [roll_back_eq _ _ hlt]
    have hfl0 : ⌊(uh - 24 * (⌊uh / 24⌋ : ℚ)) / 24⌋ = 0 :=
      Int.floor_eq_zero_iff.mpr ⟨div_nonneg hge (by norm_num),
        (div_lt_one (by norm_num : (0:ℚ) < 24)).mpr hlt⟩
    rw [hfl0]
    norm_num
  · push_neg at h0
    rw [roll_forward.eq_def, dif_neg (by linarith : ¬ (24 : ℚ) ≤ uh)]
    exact roll_back_eq uh d (by linarith)

/-- Evaluating `pyFloat` through its lexer. -/
theorem pyFloat_eval (l : List Char) (f : FloatLit) (h : floatLexeme l = some f) :
    pyFloat l = some (floatVal f) := by
  rw [pyFloat, h]
  rfl

/-- Evaluating `pyFloat` on a rejected literal. -/
theorem pyFloat_none (l : List Char) (h : floatLexeme l = none) : pyFloat l = none := by
  rw [pyFloat, h]
  rfl

/-- Branch of `_parse_timezone_offset` for colon-free strings that lex
as decimals. -/
theorem parse_tz_decimal (s : String) (v : ℚ)
    (hc : (trimWS s.data).contains ':' = false)
    (hf : pyFloat (trimWS s.data) = some v) :
    _parse_timezone_offset s = v := by
  simp only [_parse_timezone_offset, hc, hf, Bool.false_eq_true, if_false]

/-- Branch of `_parse_timezone_offset` for colon-free strings the float
parser rejects: the zero fallback. -/
theorem parse_tz_fallback (s : String)
    (hc : (trimWS s.data).contains ':' = false)
    (hf : pyFloat (trimWS s.data) = none) :
    _parse_timezone_offset s = 0 := by
  simp only [_parse_timezone_offset, hc, hf, Bool.false_eq_true, if_false]

/-- Branch of `_parse_timezone_offset` for colon-containing strings:
the sign comes from a leading `-`, all sign characters are removed, and
only the first two colon-separated fields are read — any further
fields are ignored. -/
theorem parse_tz_colon (s : String) (hrs mins : ℚ) (p0 p1 : List Char) (rest : List (List Char))
    (hc : (trimWS s.data).contains ':' = true)
    (hsplit : splitOnChar ':'
      ((trimWS s.data).filter (fun c => !(c = '+' ∨ c = '-'))) = p0 :: p1 :: rest)
    (h0 : pyFloat p0 = some hrs) (h1 : pyFloat p1 = some mins) :
    _parse_timezone_offset s =
      (if (trimWS s.data).head? = some '-' then -1 else 1) * (hrs + mins / 60) := by
  simp only [_parse_timezone_offset]
  rw [hc, if_pos rfl, hsplit]
  split
  · rename_i x q0 q1 tl heq
    injection heq with e1 e2
    injection e2 with e2 e3
    subst e1
    subst e2
    rw [h0, h1]
  · rename_i x hnone
    exact absurd rfl (hnone p0 p1 rest)

/-- Branch of `_parse_timezone_offset` for colon-containing strings
whose first or second field is not numeric: the zero fallback. -/
theorem parse_tz_colon_fallback (s : String) (p0 p1 : List Char) (rest : List (List Char))
    (hc : (trimWS s.data).contains ':' = true)
    (hsplit : splitOnChar ':'
      ((trimWS s.data).filter (fun c => !(c = '+' ∨ c = '-'))) = p0 :: p1 :: rest)
    (hfail : pyFloat p0 = none ∨ pyFloat p1 = none) :
    _parse_timezone_offset s = 0 := by
  simp only [_parse_timezone_offset]
  rw [hc, if_pos rfl, hsplit]
  split
  · rename_i x q0 q1 tl heq
    injection heq with e1 e2
    injection e2 with e2 e3
    subst e1
    subst e2
    rcases hfail with h | h
    · rw [h]
    · rw [h]
      cases hp : pyFloat p0 <;> rfl
  · rename_i x hnone
    exact absurd rfl (hnone p0 p1 rest)

/-- Evaluation form of `from_date_time_strings` once both strings
parse: the loops are replaced by their closed form. -/
theorem from_dts_eval (ds ts : String) (y mo dy h mi : ℤ) (off : ℚ)
    (hd : parse_date ds = some (y, mo, dy)) (ht : parse_time ts = some (h, mi)) :
    from_date_time_strings ds ts off =
      (mk_datetime y mo (dy + ⌊((h : ℚ) - off) / 24⌋)
        (pytrunc ((h : ℚ) - off - 24 * (⌊((h : ℚ) - off) / 24⌋ : ℚ))) mi 0).map
        from_ut_datetime := by
  unfold from_date_time_strings
  rw [hd, ht]
  show (utc_fields y mo dy h mi off).map from_ut_datetime = _
  simp only [utc_fields]
  rw [normalize_hour_day_eq]


/-- `pytrunc` on an integer value is that integer. -/
theorem pytrunc_intCast (m : ℤ) : pytrunc ((m : ℚ)) = m := by
  unfold pytrunc
  by_cases h : (0 : ℚ) ≤ (m : ℚ)
  · rw [if_pos h, Int.floor_intCast]
  · rw [if_neg h, show (-(m : ℚ)) = ((-m : ℤ) : ℚ) by push_cast; ring, Int.floor_intCast]
    ring

/-- Adding a fraction in `[0, 1)` to an integer does not change the
floor of the quotient by 24. -/
theorem floor_div24_int_add (n : ℤ) (e : ℚ) (h0 : 0 ≤ e) (h1 : e < 1) :
    ⌊((n : ℚ) + e) / 24⌋ = ⌊(n : ℚ) / 24⌋ := by
  set q : ℤ := ⌊(n : ℚ) / 24⌋ with hq
  have hle : (q : ℚ) ≤ (n : ℚ) / 24 := Int.floor_le _
  have hlt : (n : ℚ) / 24 < q + 1 := Int.lt_floor_add_one _
  have hn1 : (q : ℚ) * 24 ≤ (n : ℚ) := by
    have h2 := mul_le_mul_of_nonneg_right hle (by norm_num : (0:ℚ) ≤ 24)
    rwa [div_mul_cancel₀ _ (by norm_num : (24:ℚ) ≠ 0)] at h2
  have hn2 : (n : ℤ) < 24 * q + 24 := by
    have h2 := mul_lt_mul_of_pos_right hlt (by norm_num : (0:ℚ) < 24)
    rw [div_mul_cancel₀ _ (by norm_num : (24:ℚ) ≠ 0), add_mul, one_mul] at h2
    have h3 : (n : ℚ) < 24 * (q : ℚ) + 24 := by linarith
    exact_mod_cast h3
  have hn2q : (n : ℚ) ≤ 24 * q + 23 := by
    have h5 : (n : ℤ) ≤ 24 * q + 23 := by omega
    exact_mod_cast h5
  apply Int.floor_eq_iff.mpr
  constructor
  · rw [le_div_iff₀ (by norm_num : (0:ℚ) < 24)]
    linarith
  · rw [div_lt_iff₀ (by norm_num : (0:ℚ) < 24)]
    linarith

/-- Truncation of a nonnegative integer plus a fraction in `[0, 1)`. -/
theorem pytrunc_int_add (m : ℤ) (e : ℚ) (hm : 0 ≤ m) (h0 : 0 ≤ e) (h1 : e < 1) :
    pytrunc ((m : ℚ) + e) = m := by
  unfold pytrunc
  rw [if_pos (by positivity), Int.floor_int_add,
    show ⌊e⌋ = 0 from Int.floor_eq_zero_iff.mpr ⟨h0, h1⟩]
  ring

/-- A UTC offset with fractional part `f ∈ (0, 1)` produces the same
UTC datetime as the next whole-hour offset. -/
theorem utc_fields_frac (y mo dy h mi k : ℤ) (f : ℚ) (hf0 : 0 < f) (hf1 : f < 1) :
    utc_fields y mo dy h mi ((k : ℚ) + f) = utc_fields y mo dy h mi ((k : ℚ) + 1) := by
  simp only [utc_fields]
  rw [normalize_hour_day_eq, normalize_hour_day_eq]
  set n : ℤ := h - k - 1 with hn
  have e1 : (h : ℚ) - ((k : ℚ) + f) = (n : ℚ) + (1 - f) := by rw [hn]; push_cast; ring
  have e2 : (h : ℚ) - ((k : ℚ) + 1) = (n : ℚ) := by rw [hn]; push_cast; ring
  rw [e1, e2]
  rw [floor_div24_int_add n (1 - f) (by linarith) (by linarith)]
  set q : ℤ := ⌊(n : ℚ) / 24⌋ with hq
  have hm0 : 0 ≤ n - 24 * q := by
    have hle : (q : ℚ) ≤ (n : ℚ) / 24 := Int.floor_le _
    have h2 : (q : ℚ) * 24 ≤ (n : ℚ) := by
      have h3 := mul_le_mul_of_nonneg_right hle (by norm_num : (0:ℚ) ≤ 24)
      rwa [div_mul_cancel₀ _ (by norm_num : (24:ℚ) ≠ 0)] at h3
    have h6 : 24 * (q : ℚ) ≤ (n : ℚ) := by linarith
    have h7 : (24 * q : ℤ) ≤ n := by exact_mod_cast h6
    omega
  have e3 : (n : ℚ) + (1 - f) - 24 * (q : ℚ) = ((n - 24 * q : ℤ) : ℚ) + (1 - f) := by
    push_cast
    ring
  have e4 : (n : ℚ) - 24 * (q : ℚ) = ((n - 24 * q : ℤ) : ℚ) := by
    push_cast
    ring
  rw [e3, e4, pytrunc_int_add _ _ hm0 (by linarith) (by linarith), pytrunc_intCast]

/-- Value of a lexed float literal without an exponent part. -/
theorem floatVal_noexp (sg : ℤ) (ip fp : List Char) :
    floatVal ⟨sg, ip, fp, 1, []⟩ =
      (sg : ℚ) * ((digitsVal ip : ℚ) + (digitsVal fp : ℚ) / 10 ^ fp.length) := by
  unfold floatVal
  norm_num [show digitsVal ([] : List Char) = 0 from rfl]

/-- A date string without exactly 3 dash-separated components fails to
parse. -/
theorem parse_date_none_len (d : String) (h : (splitOnChar '-' d.data).length ≠ 3) :
    parse_date d = none := by
  unfold parse_date
  cases hl : splitOnChar '-' d.data with
  | nil => rfl
  | cons a l1 =>
    cases l1 with
    | nil => rfl
    | cons b l2 =>
      cases l2 with
      | nil => rfl
      | cons c l3 =>
        cases l3 with
        | nil => rw [hl] at h; simp at h
        | cons e l4 => rfl

/-- A date string with a non-numeric component fails to parse. -/
theorem parse_date_none_bad (d : String) (p : List Char)
    (hp : p ∈ splitOnChar '-' d.data) (hfail : pyInt p = none) :
    parse_date d = none := by
  unfold parse_date
  cases hl : splitOnChar '-' d.data with
  | nil => rfl
  | cons a l1 =>
    cases l1 with
    | nil => rfl
    | cons b l2 =>
      cases l2 with
      | nil => rfl
      | cons c l3 =>
        cases l3 with
        | cons e l4 => rfl
        | nil =>
          rw [hl] at hp
          simp only [List.mem_cons, List.not_mem_nil, or_false] at hp
          dsimp only
          rcases hp with rfl | rfl | rfl
          · rw [hfail]
          · cases ha : pyInt a
            · rfl
            · rw [hfail]
          · cases ha : pyInt a
            · rfl
            · cases hb : pyInt b
              · rfl
              · rw [hfail]

/-- A time string without exactly 2 colon-separated components fails to
parse. -/
theorem parse_time_none_len (t : String) (h : (splitOnChar ':' t.data).length ≠ 2) :
    parse_time t = none := by
  unfold parse_time
  cases hl : splitOnChar ':' t.data with
  | nil => rfl
  | cons a l1 =>
    cases l1 with
    | nil => rfl
    | cons b l2 =>
      cases l2 with
      | nil => rw [hl] at h; simp at h
      | cons c l3 => rfl

/-- A time string with a non-numeric component fails to parse. -/
theorem parse_time_none_bad (t : String) (p : List Char)
    (hp : p ∈ splitOnChar ':' t.data) (hfail : pyInt p = none) :
    parse_time t = none := by
  unfold parse_time
  cases hl : splitOnChar ':' t.data with
  | nil => rfl
  | cons a l1 =>
    cases l1 with
    | nil => rfl
    | cons b l2 =>
      cases l2 with
      | cons c l3 => rfl
      | nil =>
        rw [hl] at hp
        simp only [List.mem_cons, List.not_mem_nil, or_false] at hp
        dsimp only
        rcases hp with rfl | rfl
        · rw [hfail]
        · cases ha : pyInt a
          · rfl
          · rw [hfail]

/-- An unparseable date makes the converter return `none`. -/
theorem fdts_none_of_date (d t : String) (off : ℚ) (h : parse_date d = none) :
    from_date_time_strings d t off = none := by
  unfold from_date_time_strings
  rw [h]

/-- An unparseable time makes the converter return `none`. -/
theorem fdts_none_of_time (d t : String) (off : ℚ) (h : parse_time t = none) :
    from_date_time_strings d t off = none := by
  unfold from_date_time_strings
  rw [h]
  cases hd : parse_date d with
  | none => rfl
  | some v =>
    obtain ⟨y, mo, dy⟩ := v
    rfl

/-- The orchestrator propagates the converter's `none` without looking
at any of the later stages. -/
theorem calculate_none (moonCalc ayanCalc : ℚ → ℚ) (tropToSid : ℚ → ℚ → ℚ)
    (nakMapper : ℚ → String × ℤ × ℤ) (nadiMapper : String → String)
    (d t tz : String)
    (h : from_date_time_strings d t (_parse_timezone_offset tz) = none) :
    calculate moonCalc ayanCalc tropToSid nakMapper nadiMapper d t tz = none := by
  unfold calculate
  rw [h]


/-! ### Claim theorems -/

/-- C1: refuted by the code — the day-roll loops only increment or
decrement the day field and never roll the month or year, so local
2025-08-01T02:00 at offset +5:30 drives the day to 0, the `datetime`
constructor raises `ValueError`, and `from_date_time_strings` returns
`None` instead of the UTC moment 2025-07-31T20:30; likewise at the year
boundary; and in the leap-day example the offset's half hour is
truncated away, giving UTC 2024-02-28T20:00 rather than 20:30. -/
theorem c1_day_rollover_fails :
    from_date_time_strings "2025-08-01" "02:00" (11/2) = none ∧
    from_date_time_strings "2025-01-01" "02:00" (11/2) = none ∧
    utc_fields 2024 2 29 2 0 (11/2) = some ⟨2024, 2, 28, 20, 0, 0⟩ := by
  refine ⟨?_, ?_, ?_⟩
  · rw [from_dts_eval _ _ 2025 8 1 2 0 (11/2) (by decide) (by decide)]
    norm_num [mk_datetime]
  · rw [from_dts_eval _ _ 2025 1 1 2 0 (11/2) (by decide) (by decide)]
    norm_num [mk_datetime]
  · simp only [utc_fields]
    rw [normalize_hour_day_eq]
    norm_num [mk_datetime, days_in_month, is_leap, pytrunc]

/-- C2 counterexample: the fractional part of a non-integral UTC offset
does change the computed Julian Date — offset +5:30 (5.5 hours) and its
integer part 5 give different results on 2024-06-15T12:00. -/
theorem c2_fractional_offset_changes_jd :
    from_date_time_strings "2024-06-15" "12:00" (11/2) ≠
      from_date_time_strings "2024-06-15" "12:00" 5 := by
  rw [from_dts_eval _ _ 2024 6 15 12 0 (11/2) (by decide) (by decide),
      from_dts_eval _ _ 2024 6 15 12 0 5 (by decide) (by decide)]
  norm_num [mk_datetime, days_in_month, is_leap, pytrunc, from_ut_datetime]

/-- C2 (amended): the minute field of the UTC datetime equals the local
minute unchanged and the UTC hour is the loop-normalized offset-adjusted
hour truncated to an integer; consequently the fractional part of the
offset is not reflected in the minutes — instead a fractional offset
k + f with 0 < f < 1 behaves exactly like the whole-hour offset k + 1
(it shifts the result by a whole extra hour, not by nothing). -/
theorem c2_utc_hour_truncation :
    (∀ (y mo dy h mi : ℤ) (off : ℚ) (dt : PyDateTime),
        utc_fields y mo dy h mi off = some dt →
        dt.minute = mi ∧ dt.hour = pytrunc ((normalize_hour_day ((h : ℚ) - off) dy).1)) ∧
    (∀ (d t : String) (k : ℤ) (f : ℚ), 0 < f → f < 1 →
        from_date_time_strings d t ((k : ℚ) + f) = from_date_time_strings d t ((k : ℚ) + 1)) := by
  constructor
  · intro y mo dy h mi off dt hdt
    simp only [utc_fields] at hdt
    unfold mk_datetime at hdt
    split at hdt
    · cases hdt
      exact ⟨rfl, rfl⟩
    · cases hdt
  · intro d t k f hf0 hf1
    unfold from_date_time_strings
    cases hd : parse_date d with
    | none => rfl
    | some v =>
      obtain ⟨y, mo, dy⟩ := v
      cases ht : parse_time t with
      | none => rfl
      | some w =>
        obtain ⟨h, mi⟩ := w
        dsimp only
        rw [utc_fields_frac y mo dy h mi k f hf0 hf1]

/-- C2 witness: offset 5 + 1/2 gives the same result as offset 5 + 1 on
a concrete input. -/
theorem c2_utc_hour_truncation_witness :
    from_date_time_strings "2024-06-15" "12:00" (((5 : ℤ) : ℚ) + 1/2) =
      from_date_time_strings "2024-06-15" "12:00" (((5 : ℤ) : ℚ) + 1) :=
  c2_utc_hour_truncation.2 "2024-06-15" "12:00" 5 (1/2) (by norm_num) (by norm_num)

/-- C3: structurally malformed inputs — a date without exactly 3
dash-separated components, a time without exactly 2 colon-separated
components, or a non-numeric component — make `from_date_time_strings`
return `none` without failing, and whenever the converter returns
`none` the orchestrator returns `none` for every choice of
lunar-position, ayanamsa and mapping stages (so none of them is
evaluated). -/
theorem c3_malformed_input_no_result :
    (∀ (d t : String) (off : ℚ), (splitOnChar '-' d.data).length ≠ 3 →
        from_date_time_strings d t off = none) ∧
    (∀ (d t : String) (off : ℚ), (splitOnChar ':' t.data).length ≠ 2 →
        from_date_time_strings d t off = none) ∧
    (∀ (d t : String) (off : ℚ) (p : List Char), p ∈ splitOnChar '-' d.data →
        pyInt p = none → from_date_time_strings d t off = none) ∧
    (∀ (d t : String) (off : ℚ) (p : List Char), p ∈ splitOnChar ':' t.data →
        pyInt p = none → from_date_time_strings d t off = none) ∧
    (∀ (moonCalc ayanCalc : ℚ → ℚ) (tropToSid : ℚ → ℚ → ℚ)
        (nakMapper : ℚ → String × ℤ × ℤ) (nadiMapper : String → String) (d t tz : String),
        from_date_time_strings d t (_parse_timezone_offset tz) = none →
        calculate moonCalc ayanCalc tropToSid nakMapper nadiMapper d t tz = none) := by
  refine ⟨?_, ?_, ?_, ?_, ?_⟩
  · exact fun d t off h => fdts_none_of_date d t off (parse_date_none_len d h)
  · exact fun d t off h => fdts_none_of_time d t off (parse_time_none_len t h)
  · exact fun d t off p hp hf => fdts_none_of_date d t off (parse_date_none_bad d p hp hf)
  · exact fun d t off p hp hf => fdts_none_of_time d t off (parse_time_none_bad t p hp hf)
  · exact calculate_none

/-- C3 witness: a date with only 2 dash-separated components yields no
result. -/
theorem c3_malformed_input_no_result_witness :
    from_date_time_strings "2024-01" "02:00" 0 = none :=
  c3_malformed_input_no_result.1 "2024-01" "02:00" 0 (by decide)


/-- C4 counterexample: `"+05:30:00"` is neither a bare decimal nor a
`±HH:MM` form, yet the parser returns 5.5 rather than the claimed
zero-offset fallback. -/
theorem c4_extra_field_not_zero :
    _parse_timezone_offset "+05:30:00" = 11/2 ∧ (11/2 : ℚ) ≠ 0 := by
  have h05 : pyFloat ['0', '5'] = some 5 := by
    rw [pyFloat_eval _ ⟨1, ['0', '5'], [], 1, []⟩ (by decide), floatVal_noexp]
    norm_num [show digitsVal ['0', '5'] = 5 from by decide,
      show digitsVal ([] : List Char) = 0 from rfl]
  have h30 : pyFloat ['3', '0'] = some 30 := by
    rw [pyFloat_eval _ ⟨1, ['3', '0'], [], 1, []⟩ (by decide), floatVal_noexp]
    norm_num [show digitsVal ['3', '0'] = 30 from by decide,
      show digitsVal ([] : List Char) = 0 from rfl]
  constructor
  · rw [parse_tz_colon "+05:30:00" 5 30 ['0', '5'] ['3', '0'] [['0', '0']]
      (by decide) (by decide) h05 h30]
    rw [if_neg (by decide)]
    norm_num
  · norm_num

/-- C4 (amended): the parser maps a bare signed/unsigned decimal to its
value and a colon-containing string to sign × (H + M/60) taken from the
first two colon-separated fields after removing all sign characters,
ignoring any further fields (so `"+05:30:00"` parses as 5.5); only
colon-free strings that are not decimal literals, and colon strings
whose first two fields are not numeric, yield the 0.0 fallback. -/
theorem c4_offset_parser_forms :
    _parse_timezone_offset "5.5" = 11/2 ∧
    _parse_timezone_offset "-3" = -3 ∧
    _parse_timezone_offset "+05:30" = 11/2 ∧
    (∀ (s : String) (v : ℚ), (trimWS s.data).contains ':' = false →
        pyFloat (trimWS s.data) = some v → _parse_timezone_offset s = v) ∧
    (∀ s : String, (trimWS s.data).contains ':' = false →
        pyFloat (trimWS s.data) = none → _parse_timezone_offset s = 0) ∧
    (∀ (s : String) (hrs mins : ℚ) (p0 p1 : List Char) (rest : List (List Char)),
        (trimWS s.data).contains ':' = true →
        splitOnChar ':' ((trimWS s.data).filter (fun c => !(c = '+' ∨ c = '-'))) =
          p0 :: p1 :: rest →
        pyFloat p0 = some hrs → pyFloat p1 = some mins →
        _parse_timezone_offset s =
          (if (trimWS s.data).head? = some '-' then -1 else 1) * (hrs + mins / 60)) ∧
    (∀ (s : String) (p0 p1 : List Char) (rest : List (List Char)),
        (trimWS s.data).contains ':' = true →
        splitOnChar ':' ((trimWS s.data).filter (fun c => !(c = '+' ∨ c = '-'))) =
          p0 :: p1 :: rest →
        (pyFloat p0 = none ∨ pyFloat p1 = none) → _parse_timezone_offset s = 0) := by
  have h05 : pyFloat ['0', '5'] = some 5 := by
    rw [pyFloat_eval _ ⟨1, ['0', '5'], [], 1, []⟩ (by decide), floatVal_noexp]
    norm_num [show digitsVal ['0', '5'] = 5 from by decide,
      show digitsVal ([] : List Char) = 0 from rfl]
  have h30 : pyFloat ['3', '0'] = some 30 := by
    rw [pyFloat_eval _ ⟨1, ['3', '0'], [], 1, []⟩ (by decide), floatVal_noexp]
    norm_num [show digitsVal ['3', '0'] = 30 from by decide,
      show digitsVal ([] : List Char) = 0 from rfl]
  refine ⟨?_, ?_, ?_, parse_tz_decimal, parse_tz_fallback, parse_tz_colon,
    parse_tz_colon_fallback⟩
  · rw [parse_tz_decimal _ (11/2) (by decide)]
    rw [pyFloat_eval _ ⟨1, ['5'], ['5'], 1, []⟩ (by decide), floatVal_noexp]
    norm_num [show digitsVal ['5'] = 5 from by decide]
  · rw [parse_tz_decimal _ (-3) (by decide)]
    rw [pyFloat_eval _ ⟨-1, ['3'], [], 1, []⟩ (by decide), floatVal_noexp]
    norm_num [show digitsVal ['3'] = 3 from by decide,
      show digitsVal ([] : List Char) = 0 from rfl]
  · rw [parse_tz_colon "+05:30" 5 30 ['0', '5'] ['3', '0'] []
      (by decide) (by decide) h05 h30]
    rw [if_neg (by decide)]
    norm_num

/-- C4 witness: a colon-free non-numeric token falls back to zero. -/
theorem c4_offset_parser_forms_witness : _parse_timezone_offset "abc" = 0 :=
  c4_offset_parser_forms.2.2.2.2.1 "abc" (by decide) (pyFloat_none _ (by decide))

/-- C5: the Julian Date of the UTC moment 2000-01-01T12:00:00 is
exactly 2451545.0, the J2000 reference epoch. -/
theorem c5_j2000_epoch : from_ut_datetime ⟨2000, 1, 1, 12, 0, 0⟩ = 2451545.0 := by
  norm_num [from_ut_datetime]

/-- C6: for every rational input the normalization
`((x mod 360) + 360) mod 360` used by `_normalize_degrees` and by
`tropical_to_sidereal` lands in `[0, 360)`. -/
theorem c6_normalization_range :
    (∀ x : ℚ, 0 ≤ _normalize_degrees x ∧ _normalize_degrees x < 360) ∧
    (∀ t a : ℚ, 0 ≤ tropical_to_sidereal t a ∧ tropical_to_sidereal t a < 360) := by
  constructor
  · intro x
    unfold _normalize_degrees
    exact ⟨pymod_nonneg _ _ (by norm_num), pymod_lt _ _ (by norm_num)⟩
  · intro t a
    unfold tropical_to_sidereal
    exact ⟨pymod_nonneg _ _ (by norm_num), pymod_lt _ _ (by norm_num)⟩

/-- C7: a sidereal longitude exactly on a mansion boundary
`k × (360/27)`, and more generally on any sub-division boundary
`k × span + j × (span/4)`, belongs to the sector that starts there:
mansion index `k`, sub-division `j + 1` (so exactly `k × (360/27)` maps
to index `k`, sub-division 1). -/
theorem c7_boundary_lower_inclusive (k j : ℕ) (hk : k < 27) (hj : j < 4) :
    longitude_to_nakshatra ((k : ℚ) * NAKSHATRA_SPAN_DEGREES + (j : ℚ) * PADA_SPAN_DEGREES) =
      (NAKSHATRAS.getD k "", (k : ℤ), (j : ℤ) + 1) := by
  have hk26 : (k : ℚ) ≤ 26 := by exact_mod_cast Nat.lt_succ_iff.mp hk
  have hj3 : (j : ℚ) ≤ 3 := by exact_mod_cast Nat.lt_succ_iff.mp hj
  have hspan : NAKSHATRA_SPAN_DEGREES = 40/3 := by norm_num [NAKSHATRA_SPAN_DEGREES]
  have hpada : PADA_SPAN_DEGREES = 10/3 := by norm_num [PADA_SPAN_DEGREES, NAKSHATRA_SPAN_DEGREES]
  set L : ℚ := (k : ℚ) * NAKSHATRA_SPAN_DEGREES + (j : ℚ) * PADA_SPAN_DEGREES with hL
  have hL0 : 0 ≤ L := by
    rw [hL, hspan, hpada]
    positivity
  have hL360 : L < 360 := by
    rw [hL, hspan, hpada]
    nlinarith [hk26, hj3]
  have hmod : pymod L 360 = L := pymod_eq_self _ _ hL0 hL360
  have hdiv : L / NAKSHATRA_SPAN_DEGREES = (k : ℚ) + (j : ℚ) / 4 := by
    rw [hL, hspan, hpada]
    field_simp
    ring
  have hidx : pytrunc (L / NAKSHATRA_SPAN_DEGREES) = (k : ℤ) := by
    rw [hdiv]
    unfold pytrunc
    rw [if_pos (by positivity)]
    rw [show (k : ℚ) + (j : ℚ) / 4 = ((k : ℤ) : ℚ) + (j : ℚ) / 4 by push_cast; ring]
    rw [Int.floor_int_add]
    rw [show ⌊(j : ℚ) / 4⌋ = 0 from Int.floor_eq_zero_iff.mpr
      ⟨by positivity, by rw [div_lt_one (by norm_num : (0:ℚ) < 4)]; linarith⟩]
    ring
  have hpos : L - ((k : ℤ) : ℚ) * NAKSHATRA_SPAN_DEGREES = (j : ℚ) * PADA_SPAN_DEGREES := by
    rw [hL]
    push_cast
    ring
  have hpdiv : (j : ℚ) * PADA_SPAN_DEGREES / PADA_SPAN_DEGREES = (j : ℚ) := by
    rw [hpada]
    field_simp
  have hpada_tr : pytrunc ((j : ℚ)) = (j : ℤ) := by
    unfold pytrunc
    rw [if_pos (by positivity)]
    exact_mod_cast Int.floor_natCast j
  have hlen : (NAKSHATRAS.length : ℤ) = 27 := rfl
  dsimp only [longitude_to_nakshatra]
  rw [hmod, hidx, hlen]
  rw [if_neg (by omega : ¬ ((k : ℤ) ≥ 27))]
  rw [if_neg (by omega : ¬ ((k : ℤ) < 0))]
  rw [Int.toNat_natCast, hpos, hpdiv, hpada_tr]
  rw [if_neg (by omega : ¬ ((j : ℤ) + 1 > 4))]
  rw [if_neg (by omega : ¬ ((j : ℤ) + 1 < 1))]

/-- C7 witness: the start of the fourth mansion. -/
theorem c7_boundary_lower_inclusive_witness :
    longitude_to_nakshatra (((3 : ℕ) : ℚ) * NAKSHATRA_SPAN_DEGREES +
        ((0 : ℕ) : ℚ) * PADA_SPAN_DEGREES) =
      (NAKSHATRAS.getD 3 "", ((3 : ℕ) : ℤ), ((0 : ℕ) : ℤ) + 1) :=
  c7_boundary_lower_inclusive 3 0 (by decide) (by decide)

/-- C8: on every rational input the mapper's mansion index lies in
`[0, 26]` and its sub-division in `[1, 4]`; the function is total, so
no input signals an error. -/
theorem c8_mapper_always_clamped (x : ℚ) :
    0 ≤ (longitude_to_nakshatra x).2.1 ∧ (longitude_to_nakshatra x).2.1 ≤ 26 ∧
    1 ≤ (longitude_to_nakshatra x).2.2 ∧ (longitude_to_nakshatra x).2.2 ≤ 4 := by
  have hlen : (NAKSHATRAS.length : ℤ) = 27 := rfl
  dsimp only [longitude_to_nakshatra]
  rw [hlen]
  split_ifs <;> omega

/-- C9: the three static groups partition the 27 mansion names —
each group has exactly 9 distinct names, every group member is a
mansion name, and every mansion name occurs in exactly one group. -/
theorem c9_nadi_groups_partition :
    NAKSHATRAS.length = 27 ∧ NAKSHATRAS.Nodup ∧
    (NADI_GROUPS.map fun g => g.2.length) = [9, 9, 9] ∧
    (∀ g ∈ NADI_GROUPS, g.2.Nodup) ∧
    (∀ n ∈ NAKSHATRAS, (NADI_GROUPS.countP fun g => decide (n ∈ g.2)) = 1) ∧
    (∀ g ∈ NADI_GROUPS, ∀ n ∈ g.2, n ∈ NAKSHATRAS) := by decide

/-- C9 witness: the first mansion name lies in exactly one group. -/
theorem c9_nadi_groups_partition_witness :
    (NADI_GROUPS.countP fun g => decide ("Ashwini" ∈ g.2)) = 1 :=
  c9_nadi_groups_partition.2.2.2.2.1 "Ashwini" (by decide)

/-- C10: the normalizer is the identity on `[0, 360)`, hence
idempotent. -/
theorem c10_normalize_idempotent (x : ℚ) (h0 : 0 ≤ x) (h1 : x < 360) :
    _normalize_degrees x = x := by
  rw [normalize_degrees_eq_pymod]
  exact pymod_eq_self _ _ h0 h1

/-- C10 witness: a value already in range is returned unchanged. -/
theorem c10_normalize_idempotent_witness : _normalize_degrees (7/2) = 7/2 :=
  c10_normalize_idempotent (7/2) (by norm_num) (by norm_num)

end NadiDosha



